import Mathlib

/-!
Verification development for the PyTunes media player (src/main.py, class
MediaPlayerApp).  The playlist-view derivation and playback-position state
machine of the player is embedded shallowly: the mutable attributes of the
Python object become the fields of `AppState`, every state-mutating method
becomes a pure function `AppState → AppState`, and external collaborators are
passed in as explicit parameters:

* the filesystem (`os.path.isfile`) is a predicate `fs : String → Bool`;
* path normalisation (`os.path.abspath(os.path.normpath ·)`) is a function
  `norm : String → String`;
* the random permutation drawn by `random.shuffle` is a function
  `shuffleFn : List String → List String`;
* the yes/no answer of the "File Missing – remove this track?" dialog is a
  boolean `removeDecision`;
* the tag-reading library (mutagen) is a function
  `reader : String → Except Unit TagData`, `Except.error` modelling a
  `MutagenError` raised by the format constructor (corrupt file);
* the listbox selection read by `curselection()` is an `Option Nat`.

Pure UI effects (labels, progress bar, album art, listbox selection
highlighting, message boxes) have no counterpart in the state; the one
observable message the specification talks about, the "End of playlist"
notice, is returned as a boolean next to the state by `nextTrack`.  The file
loaded into the pygame mixer is tracked in the ghost field `loaded_path`
(pygame keeps the loaded track across `stop`).  String primitives are
re-implemented over `String.data` so that every definition evaluates by
kernel reduction; `lowerChar` is the ASCII case mapping, which is also what
`Char.toLower` implements.
-/

namespace PyTunes

/-- Lowercase one character (ASCII model of Python `str.lower`, applied
characterwise). -/
def lowerChar (c : Char) : Char :=
  if 'A' ≤ c ∧ c ≤ 'Z' then Char.ofNat (c.toNat + 32) else c

/-- Lowercase a string; model of Python `str.lower`. -/
def toLowerStr (s : String) : String := ⟨s.data.map lowerChar⟩

/-- Whitespace test used by the model of Python `str.strip`. -/
def isSpaceChar (c : Char) : Bool :=
  decide (c = ' ' ∨ c = '\t' ∨ c = '\n' ∨ c = '\r')

/-- Model of Python `str.strip`: drop whitespace from both ends. -/
def trimStr (s : String) : String :=
  ⟨((s.data.dropWhile isSpaceChar).reverse.dropWhile isSpaceChar).reverse⟩

/-- Does the first list occur as a leading segment of the second? -/
def leadMatch : List Char → List Char → Bool
  | [], _ => true
  | _ :: _, [] => false
  | a :: as, b :: bs => a == b && leadMatch as bs

/-- Does the first list occur contiguously inside the second?  Together with
`strContains` this is the model of Python `needle in haystack` on strings. -/
def occursIn (ndl : List Char) : List Char → Bool
  | [] => leadMatch ndl []
  | b :: bs => leadMatch ndl (b :: bs) || occursIn ndl bs

/-- Python `ndl in hay` for strings. -/
def strContains (hay ndl : String) : Bool := occursIn ndl.data hay.data

/-- Python `s.startswith(pre)`. -/
def startsWithStr (s pre : String) : Bool := leadMatch pre.data s.data

/-- Model of `os.path.basename` for POSIX paths: the part after the last
slash. -/
def basename (p : String) : String :=
  ⟨(p.data.reverse.takeWhile (· ≠ '/')).reverse⟩

/-- Extension component of `os.path.splitext` (leading dots of the basename do
not begin an extension). -/
def extOf (p : String) : String :=
  let b := (basename p).data
  let core := b.drop (b.takeWhile (· = '.')).length
  if core.contains '.' then ⟨'.' :: (core.reverse.takeWhile (· ≠ '.')).reverse⟩
  else ""

/-- Boolean lexicographic order on char lists: Python string comparison. -/
def chrListLe : List Char → List Char → Bool
  | [], _ => true
  | _ :: _, [] => false
  | a :: as, b :: bs => if a = b then chrListLe as bs else decide (a < b)

/-- Python `<=` on strings. -/
def strLe (a b : String) : Bool := chrListLe a.data b.data

/-- Stable insertion of one element into a sorted list. -/
def orderedInsertBy (le : String → String → Bool) (a : String) :
    List String → List String
  | [] => [a]
  | b :: l => if le a b then a :: b :: l else b :: orderedInsertBy le a l

/-- Stable ascending sort: the model of Python `list.sort` (unique result of
any stable ascending sort under a total preorder). -/
def sortBy (le : String → String → Bool) : List String → List String
  | [] => []
  | a :: l => orderedInsertBy le a (sortBy le l)

/-- Playback state: `self.playing_state ∈ {"stopped", "playing", "paused"}`. -/
inductive PlayState where
  | stopped
  | playing
  | paused
deriving DecidableEq

/-- The mutable attributes of `MediaPlayerApp` that the playlist/playback state
machine reads or writes.  `playlist` is the displayed view, `listbox_path_map`
the listbox-index-to-path dictionary (the map with keys `0..n-1` is represented
by the list of its values), `loaded_path` the file currently loaded in the
pygame mixer. -/
structure AppState where
  playlist : List String
  original_playlist_order : List String
  current_track_index : Int
  playback_history : List Int
  playing_state : PlayState
  is_shuffled : Bool
  repeat_mode : Nat
  current_search_term : String
  listbox_path_map : List String
  last_applied_search : String
  last_applied_shuffle : Bool
  loaded_path : Option String
deriving DecidableEq

def REPEAT_OFF : Nat := 0
def REPEAT_ONE : Nat := 1
def REPEAT_ALL : Nat := 2

/-- The state set up by `__init__`. -/
def initialState : AppState where
  playlist := []
  original_playlist_order := []
  current_track_index := -1
  playback_history := []
  playing_state := .stopped
  is_shuffled := false
  repeat_mode := REPEAT_OFF
  current_search_term := ""
  listbox_path_map := []
  last_applied_search := ""
  last_applied_shuffle := false
  loaded_path := none

/-- Python `self.listbox_path_map.get(i)`: the dictionary has keys
`0..len-1`. -/
def mapGet (m : List String) (i : Int) : Option String :=
  if 0 ≤ i then m[i.toNat]? else none

/-- Position of `p` in the inverted index map
`{path: idx for idx, path in listbox_path_map.items()}`; the dict
comprehension keeps the last index when a path occurs twice. -/
def lastIndexOf (m : List String) (p : String) : Option Nat :=
  ((List.range m.length).filter (fun i => decide (m[i]? = some p))).getLast?

/-- The `new_playing_index` computation of
`_find_and_select_playing_track_after_update`: Python starts from `-1` and
looks the (truthy) path up in the inverted map. -/
def newPlayingIndex (m : List String) (pp : String) : Int :=
  if pp ≠ "" then
    match lastIndexOf m pp with
    | some i => (i : Int)
    | none => -1
  else -1

/-- Method `_find_and_select_playing_track_after_update` (src/main.py
lines 1676-1728).  Listbox selection and metadata preloading are pure UI;
only `current_track_index` changes.  Python truthiness of `playing_path`
(`None` and `""` are falsy) is modelled through `getD ""`. -/
def findAndSelectPlayingTrack (playing_path : Option String) (s : AppState) :
    AppState :=
  let pp := playing_path.getD ""
  let idx := newPlayingIndex s.listbox_path_map pp
  if idx ≠ -1 then
    { s with current_track_index := idx }
  else if s.playing_state ≠ .stopped ∧ pp ≠ "" then
    { s with current_track_index := -1 }
  else if s.playlist ≠ [] then
    { s with current_track_index := 0 }
  else
    { s with current_track_index := -1 }

/-- Method `_apply_filters_and_shuffle` (src/main.py lines 1609-1674):
recompute the view from the master list unless neither the search term nor the
shuffle flag changed since the last recompute and no forced refresh was
requested.  `_repopulate_listbox` rebuilds `listbox_path_map` from the new
`playlist`. -/
def applyFiltersAndShuffle (shuffleFn : List String → List String)
    (force_refresh : Bool) (s : AppState) : AppState :=
  if force_refresh = false ∧ s.current_search_term = s.last_applied_search ∧
      s.is_shuffled = s.last_applied_shuffle then
    s
  else
    let temp1 :=
      if s.current_search_term ≠ "" then
        s.original_playlist_order.filter
          (fun p => strContains (toLowerStr (basename p)) s.current_search_term)
      else s.original_playlist_order
    let temp2 := if s.is_shuffled then shuffleFn temp1 else temp1
    let playing_path : Option String :=
      if s.playing_state ≠ .stopped ∧ s.current_track_index ≠ -1 then
        mapGet s.listbox_path_map s.current_track_index
      else none
    let s1 := { s with playlist := temp2, listbox_path_map := temp2 }
    let s2 := findAndSelectPlayingTrack playing_path s1
    { s2 with
      last_applied_search := s.current_search_term
      last_applied_shuffle := s.is_shuffled }

/-- Method `stop_track` (src/main.py lines 1256-1267): `current_track_index`
is intentionally kept so that Play can resume from the stopped track; pygame
keeps the loaded file. -/
def stopTrack (s : AppState) : AppState :=
  { s with playing_state := .stopped }

/-- Method `remove_track_from_playlist` (src/main.py lines 1169-1208).  The
`min(hint, len-1)` listbox re-selection and the metadata preload are pure UI;
the hint argument therefore does not influence the abstract state. -/
def removeTrackFromPlaylist (shuffleFn : List String → List String)
    (filepath : String) (s : AppState) : AppState :=
  if filepath = "" then s
  else if filepath ∈ s.original_playlist_order then
    let s1 :=
      { s with original_playlist_order :=
          s.original_playlist_order.erase filepath }
    let s2 := applyFiltersAndShuffle shuffleFn false s1
    if s2.playlist ≠ [] then s2
    else { s2 with current_track_index := -1 }
  else s

/-- Method `_validate_track_for_playback` (src/main.py lines 1074-1113).
Returns the validated path, or `none` together with the state left behind by
the defensive stop / removal dialog.  `removeDecision` is the user's answer to
the "Remove this track from the playlist?" prompt. -/
def validateTrackForPlayback (fs : String → Bool) (removeDecision : Bool)
    (shuffleFn : List String → List String) (idx : Int) (s : AppState) :
    Option String × AppState :=
  if s.playlist = [] ∨ ¬ (0 ≤ idx ∧ idx < (s.playlist.length : Int)) then
    (none, stopTrack s)
  else
    let fp := (mapGet s.listbox_path_map idx).getD ""
    if fp = "" ∨ fs fp = false then
      if removeDecision then
        (none, stopTrack (removeTrackFromPlaylist shuffleFn fp s))
      else
        (none, stopTrack s)
    else (some fp, s)

/-- Method `play_track` (src/main.py lines 1115-1167).  Metadata loading and
display updates are UI; the pygame `load`/`play` calls are modelled as
succeeding (an engine failure would stop playback, a path no claim
exercises). -/
def playTrack (fs : String → Bool) (removeDecision : Bool)
    (shuffleFn : List String → List String) (idx : Int) (s : AppState) :
    AppState :=
  match validateTrackForPlayback fs removeDecision shuffleFn idx s with
  | (none, s1) => s1
  | (some fp, s1) =>
    let s2 :=
      if s1.current_track_index ≠ -1 ∧ s1.current_track_index ≠ idx ∧
          mapGet s1.listbox_path_map s1.current_track_index ≠ some fp then
        let h := s1.playback_history ++ [s1.current_track_index]
        { s1 with playback_history := if h.length > 30 then h.tail else h }
      else s1
    { s2 with
      current_track_index := idx
      loaded_path := some fp
      playing_state := .playing }

/-- Method `play_from_selection_or_start` (src/main.py lines 1238-1253);
`sel` is the listbox `curselection()`. -/
def playFromSelectionOrStart (fs : String → Bool) (removeDecision : Bool)
    (shuffleFn : List String → List String) (sel : Option Nat) (s : AppState) :
    AppState :=
  let target : Int :=
    match sel with
    | some i => (i : Int)
    | none =>
      if s.current_track_index ≠ -1 then s.current_track_index
      else if s.playlist ≠ [] then 0
      else -1
  if target ≠ -1 then playTrack fs removeDecision shuffleFn target s else s

/-- Method `toggle_play_pause` (src/main.py lines 1212-1235). -/
def togglePlayPause (fs : String → Bool) (removeDecision : Bool)
    (shuffleFn : List String → List String) (sel : Option Nat) (s : AppState) :
    AppState :=
  if s.playlist = [] then s
  else
    match s.playing_state with
    | .playing => { s with playing_state := .paused }
    | .paused => { s with playing_state := .playing }
    | .stopped => playFromSelectionOrStart fs removeDecision shuffleFn sel s

/-- Method `next_track` (src/main.py lines 1270-1304); `fromEvent` is the
`from_event` flag set by the `MUSIC_END_EVENT` poll.  The boolean returned
next to the state records whether the "Playback Finished – End of playlist."
notice was shown. -/
def nextTrack (fs : String → Bool) (removeDecision : Bool)
    (shuffleFn : List String → List String) (fromEvent : Bool) (s : AppState) :
    AppState × Bool :=
  if s.playlist = [] then (s, false)
  else
    let n : Int := (s.playlist.length : Int)
    if s.repeat_mode = REPEAT_ONE ∧ fromEvent then
      (if s.current_track_index ≠ -1 then
        playTrack fs removeDecision shuffleFn s.current_track_index s
       else s, false)
    else if s.current_track_index < n - 1 then
      (if s.current_track_index + 1 ≠ -1 then
        playTrack fs removeDecision shuffleFn (s.current_track_index + 1) s
       else s, false)
    else if s.repeat_mode = REPEAT_ALL then
      (playTrack fs removeDecision shuffleFn 0 s, false)
    else if fromEvent then (stopTrack s, true)
    else (s, false)

/-- The shuffle-history pop of `prev_track` (src/main.py lines 1332-1341):
pop a candidate position and validate it against the current view; an invalid
candidate is discarded (the pop itself is kept). -/
def popCandidate (s : AppState) : Int × AppState :=
  if s.is_shuffled ∧ s.playback_history ≠ [] then
    let c := (s.playback_history.getLast?).getD (-1)
    let s1 := { s with playback_history := s.playback_history.dropLast }
    if 0 ≤ c ∧ c < (s.playlist.length : Int) ∧
        (mapGet s1.listbox_path_map c).getD "" ≠ "" then
      (c, s1)
    else (-1, s1)
  else (-1, s)

/-- The linear fallback of `prev_track` (src/main.py lines 1344-1350). -/
def prevIndexOf (cand : Int) (s1 : AppState) (n : Int) : Int :=
  if cand ≠ -1 then cand
  else if s1.current_track_index > 0 then s1.current_track_index - 1
  else if s1.repeat_mode = REPEAT_ALL then n - 1
  else if 0 < n then 0
  else -1

/-- Method `prev_track` (src/main.py lines 1307-1362).  `restartCond` models
`pygame.mixer.music.get_busy() and get_pos() > 3000`. -/
def prevTrack (fs : String → Bool) (removeDecision : Bool)
    (shuffleFn : List String → List String) (restartCond : Bool)
    (s : AppState) : AppState :=
  if s.playlist = [] then s
  else
    let n : Int := (s.playlist.length : Int)
    if s.playing_state = .playing ∧ restartCond ∧
        s.current_track_index ≠ -1 then
      playTrack fs removeDecision shuffleFn s.current_track_index s
    else
      let pc := popCandidate s
      let prev_index := prevIndexOf pc.1 pc.2 n
      if prev_index ≠ -1 ∧ 0 ≤ prev_index ∧ prev_index < n then
        playTrack fs removeDecision shuffleFn prev_index pc.2
      else if 0 < n ∧ pc.2.current_track_index = 0 ∧ prev_index = 0 then
        playTrack fs removeDecision shuffleFn pc.2.current_track_index pc.2
      else stopTrack pc.2

/-- Method `toggle_shuffle` (src/main.py lines 1522-1530). -/
def toggleShuffle (shuffleFn : List String → List String) (s : AppState) :
    AppState :=
  applyFiltersAndShuffle shuffleFn false
    { s with is_shuffled := !s.is_shuffled, playback_history := [] }

/-- Method `set_repeat_mode` (src/main.py lines 1532-1537); the menu radio
variable carries 0, 1, or 2. -/
def setRepeatMode (m : Nat) (s : AppState) : AppState :=
  { s with repeat_mode := m }

/-- Method `cycle_repeat_mode` (src/main.py lines 1539-1545). -/
def cycleRepeatMode (s : AppState) : AppState :=
  { s with repeat_mode := (s.repeat_mode + 1) % 3 }

/-- Method `search_playlist_action` (src/main.py lines 1730-1733):
`self.search_var.get().lower().strip()` becomes the current search term. -/
def searchPlaylistAction (shuffleFn : List String → List String)
    (raw : String) (s : AppState) : AppState :=
  applyFiltersAndShuffle shuffleFn false
    { s with current_search_term := trimStr (toLowerStr raw) }

/-- Method `clear_search_action` (src/main.py lines 1735-1739). -/
def clearSearchAction (shuffleFn : List String → List String) (s : AppState) :
    AppState :=
  applyFiltersAndShuffle shuffleFn false { s with current_search_term := "" }

/-- Method `sort_playlist_action` (src/main.py lines 1548-1606).  `keyOf`
yields the sort key of a path: for `sort_key='path'` it is `toLowerStr`, for
the tag keys it is the lowercased metadata value fetched through mutagen
(external, hence a parameter). -/
def sortPlaylistAction (keyOf : String → String)
    (shuffleFn : List String → List String) (s : AppState) : AppState :=
  if s.original_playlist_order = [] then s
  else
    applyFiltersAndShuffle shuffleFn false
      { s with
        original_playlist_order :=
          sortBy (fun a b => strLe (keyOf a) (keyOf b))
            s.original_playlist_order
        is_shuffled := false }

/-- The accumulation loop of `add_files_to_playlist` (src/main.py
lines 831-850): returns the new master list and the newly added paths. -/
def addLoop (fs : String → Bool) (norm : String → String)
    (files : List String) (orig : List String) : List String × List String :=
  files.foldl
    (fun acc fp =>
      let ap := norm fp
      if fs ap = false then acc
      else if ap ∈ acc.1 then acc
      else (acc.1 ++ [ap], acc.2 ++ [ap]))
    (orig, [])

/-- Method `add_files_to_playlist` (src/main.py lines 826-874). -/
def addFilesToPlaylist (fs : String → Bool) (norm : String → String)
    (shuffleFn : List String → List String) (files : List String)
    (s : AppState) : AppState :=
  let res := addLoop fs norm files s.original_playlist_order
  if res.2 = [] then s
  else
    let s1 := applyFiltersAndShuffle shuffleFn false
      { s with original_playlist_order := res.1 }
    if s1.original_playlist_order.length = res.2.length ∧
        s1.playing_state = .stopped then
      if s1.playlist ≠ [] then { s1 with current_track_index := 0 }
      else s1
    else s1

/-- Line filter of `load_playlist_dialog` (src/main.py line 920): keep
stripped non-empty lines that do not begin with `#`. -/
def parsePlaylistLines (lines : List String) : List String :=
  lines.filterMap
    (fun ln =>
      if trimStr ln ≠ "" ∧ startsWithStr ln "#" = false then some (trimStr ln)
      else none)

/-- Existence filter of `load_playlist_dialog` (src/main.py lines 940-948):
normalise each path and keep those present on disk. -/
def loadExistingPaths (fs : String → Bool) (norm : String → String)
    (lines : List String) : List String :=
  (parsePlaylistLines lines).filterMap
    (fun p => if fs (norm p) then some (norm p) else none)

/-- Method `load_playlist_dialog` after the file has been read into its lines
(src/main.py lines 908-967); `confirm` is the answer to the "Replace current
playlist?" prompt. -/
def loadPlaylistAction (fs : String → Bool) (norm : String → String)
    (shuffleFn : List String → List String) (lines : List String)
    (confirm : Bool) (s : AppState) : AppState :=
  if parsePlaylistLines lines = [] then s
  else
    let existing := loadExistingPaths fs norm lines
    if existing ≠ [] ∧ confirm then
      let s1 := stopTrack s
      let s2 :=
        { s1 with
          playlist := []
          original_playlist_order := []
          current_track_index := -1
          playback_history := [] }
      addFilesToPlaylist fs norm shuffleFn existing s2
    else s

/-- Method `save_playlist_dialog` (src/main.py lines 970-994), the written
file represented by its list of lines: `none` when the master list is empty
(nothing is written), otherwise the `#EXTM3U` header followed by one path per
line. -/
def savePlaylistLines (orig : List String) : Option (List String) :=
  if orig = [] then none else some ("#EXTM3U" :: orig)

/-- Tag data handed back by a successful mutagen constructor: optional
title/artist/album frames, the stream length in whole seconds, and optional
embedded art bytes. -/
structure TagData where
  title : Option String
  artist : Option String
  album : Option String
  duration : Nat
  art : Option String
deriving DecidableEq

/-- The dictionary returned by `get_track_metadata`. -/
structure Metadata where
  title : String
  artist : String
  album : String
  duration : Nat
  art_data : Option String
deriving DecidableEq

/-- Method `get_track_metadata` (src/main.py lines 998-1071).  A missing file
short-circuits to a `[Missing]`-titled record with empty artist/album.  For
`.mp3` the call `MP3(filepath, ID3=ID3)` raises `NameError` (`ID3` is never
imported, src/main.py line 15 imports only `ID3NoHeaderError` and `APIC`), the
inner handler only catches `ID3NoHeaderError`, so the outer
`except Exception` always fires and appends " (Meta Error)" to the default
title.  For `.ogg`/`.flac` the constructor outcome is `reader`; `.wav` reads
only the duration.  Any other extension touches no parser and keeps the
defaults. -/
def getTrackMetadata (fs : String → Bool)
    (reader : String → Except Unit TagData) (p : String) : Metadata :=
  if fs p = false then
    { title := "[Missing] " ++ basename p, artist := "", album := "",
      duration := 0, art_data := none }
  else
    let dflt : Metadata :=
      { title := basename p, artist := "Unknown Artist",
        album := "Unknown Album", duration := 0, art_data := none }
    let ext := toLowerStr (extOf p)
    if ext = ".mp3" then
      { dflt with title := dflt.title ++ " (Meta Error)" }
    else if ext = ".ogg" ∨ ext = ".flac" then
      match reader p with
      | .error _ => dflt
      | .ok td =>
        let t0 := td.title.getD dflt.title
        let a0 := td.artist.getD dflt.artist
        let al0 := td.album.getD dflt.album
        { title :=
            if t0 = "" ∨ startsWithStr t0 "[Missing]" then basename p else t0
          artist := if a0 = "" then "Unknown Artist" else a0
          album := if al0 = "" then "Unknown Album" else al0
          duration := td.duration
          art_data := td.art }
    else if ext = ".wav" then
      match reader p with
      | .error _ => dflt
      | .ok td => { dflt with duration := td.duration }
    else dflt

/-- The filter-and-shuffle derivation of the displayed view from the master
list: exactly the `temp_playlist` computation of `_apply_filters_and_shuffle`
(src/main.py lines 1633-1651). -/
def deriveView (shuffleFn : List String → List String) (s : AppState) :
    List String :=
  let temp1 :=
    if s.current_search_term ≠ "" then
      s.original_playlist_order.filter
        (fun p => strContains (toLowerStr (basename p)) s.current_search_term)
    else s.original_playlist_order
  if s.is_shuffled then shuffleFn temp1 else temp1

/-- The cursor bound the specification states as the `currentIndex`
invariant: unset, or a valid position of the displayed view. -/
def cursorOK (s : AppState) : Prop :=
  s.current_track_index = -1 ∨
    (0 ≤ s.current_track_index ∧
      s.current_track_index < (s.playlist.length : Int))

/-- States reachable from `__init__` by the user intents the GUI exposes
(each constructor is one handler; external collaborators are arbitrary). -/
inductive Reachable : AppState → Prop where
  | init : Reachable initialState
  | add (fs : String → Bool) (norm : String → String)
      (f : List String → List String) (files : List String) {s : AppState} :
      Reachable s → Reachable (addFilesToPlaylist fs norm f files s)
  | remove (f : List String → List String) (path : String) {s : AppState} :
      Reachable s → Reachable (removeTrackFromPlaylist f path s)
  | sort (keyOf : String → String) (f : List String → List String)
      {s : AppState} : Reachable s → Reachable (sortPlaylistAction keyOf f s)
  | search (f : List String → List String) (raw : String) {s : AppState} :
      Reachable s → Reachable (searchPlaylistAction f raw s)
  | clearSearch (f : List String → List String) {s : AppState} :
      Reachable s → Reachable (clearSearchAction f s)
  | shuffle (f : List String → List String) {s : AppState} :
      Reachable s → Reachable (toggleShuffle f s)
  | repeatSet (m : Nat) {s : AppState} :
      Reachable s → Reachable (setRepeatMode m s)
  | repeatCycle {s : AppState} : Reachable s → Reachable (cycleRepeatMode s)
  | play (fs : String → Bool) (rd : Bool) (f : List String → List String)
      (idx : Int) {s : AppState} :
      Reachable s → Reachable (playTrack fs rd f idx s)
  | next (fs : String → Bool) (rd : Bool) (f : List String → List String)
      (ev : Bool) {s : AppState} :
      Reachable s → Reachable (nextTrack fs rd f ev s).1
  | prev (fs : String → Bool) (rd : Bool) (f : List String → List String)
      (rc : Bool) {s : AppState} :
      Reachable s → Reachable (prevTrack fs rd f rc s)
  | toggle (fs : String → Bool) (rd : Bool) (f : List String → List String)
      (sel : Option Nat) {s : AppState} :
      Reachable s → Reachable (togglePlayPause fs rd f sel s)
  | stop {s : AppState} : Reachable s → Reachable (stopTrack s)
  | load (fs : String → Bool) (norm : String → String)
      (f : List String → List String) (lines : List String) (confirm : Bool)
      {s : AppState} :
      Reachable s → Reachable (loadPlaylistAction fs norm f lines confirm s)

/-- A filesystem on which every path exists. -/
def fsTrue : String → Bool := fun _ => true

/-- Path normalisation for inputs that are already absolute and normal. -/
def idNorm : String → String := fun p => p

/-- The identity permutation, one possible draw of `random.shuffle`. -/
def idPerm : List String → List String := fun l => l

/-- A concrete interaction trace: add two tracks, materialise the view by
toggling shuffle on and off, play the second track, filter it out with a
search, clear the search (the cursor lands on position 0, the first track),
then search for the playing track again.  The captured cursor path is now the
first track, which the new view excludes, so cursor resolution unsets the
cursor even though the audibly playing file is in the view. -/
def c3State : AppState :=
  searchPlaylistAction idPerm "b"
    (clearSearchAction idPerm
      (searchPlaylistAction idPerm "a"
        (playTrack fsTrue false idPerm 1
          (toggleShuffle idPerm
            (toggleShuffle idPerm
              (addFilesToPlaylist fsTrue idNorm idPerm
                ["/aa.ogg", "/bb.ogg"] initialState))))))

/-- A concrete state playing the first of three tracks with repeat off and
shuffle off (the double shuffle toggle materialises the view, which
`add_files_to_playlist` alone never does). -/
def c5Start : AppState :=
  playTrack fsTrue false idPerm 0
    (toggleShuffle idPerm
      (toggleShuffle idPerm
        (addFilesToPlaylist fsTrue idNorm idPerm
          ["/A.mp3", "/B.mp3", "/C.mp3"] initialState)))

/-- The empty needle occurs in every haystack. -/
theorem occursIn_nil (l : List Char) : occursIn [] l = true := by
  induction l with
  | nil => rfl
  | cons b bs ih => simp [occursIn, leadMatch]

/-- The empty search pattern passes every path. -/
theorem strContains_empty (hay : String) : strContains hay "" = true := by
  simpa [strContains] using occursIn_nil hay.data

/-- An index produced by the inverted map is a valid view position. -/
theorem lastIndexOf_lt {m : List String} {p : String} {i : Nat}
    (h : lastIndexOf m p = some i) : i < m.length := by
  have hmem : i ∈ (List.range m.length).filter
      (fun j => decide (m[j]? = some p)) := List.mem_of_mem_getLast? h
  have := List.mem_filter.mp hmem
  exact List.mem_range.mp this.1

/-- Cursor resolution only rewrites `current_track_index`. -/
theorem findAndSelect_frame (pp : Option String) (s : AppState) :
    ∃ i, findAndSelectPlayingTrack pp s = { s with current_track_index := i } := by
  unfold findAndSelectPlayingTrack
  dsimp only
  split_ifs <;> exact ⟨_, rfl⟩

theorem findAndSelect_playlist (pp : Option String) (s : AppState) :
    (findAndSelectPlayingTrack pp s).playlist = s.playlist := by
  obtain ⟨i, h⟩ := findAndSelect_frame pp s
  rw [h]

/-- A non-sentinel `new_playing_index` comes from the inverted map. -/
theorem newPlayingIndex_spec (m : List String) (pp : String) :
    newPlayingIndex m pp = -1 ∨
    ∃ i, lastIndexOf m pp = some i ∧ newPlayingIndex m pp = (i : Int) := by
  unfold newPlayingIndex
  split_ifs with h
  · cases hl : lastIndexOf m pp with
    | none => simp [hl]
    | some i => exact Or.inr ⟨i, rfl, by simp [hl]⟩
  · simp

/-- The possible cursor outcomes of cursor resolution. -/
theorem findAndSelect_current (pp : Option String) (s : AppState) :
    (findAndSelectPlayingTrack pp s).current_track_index = -1 ∨
    (∃ i, lastIndexOf s.listbox_path_map (pp.getD "") = some i ∧
      (findAndSelectPlayingTrack pp s).current_track_index = (i : Int)) ∨
    ((findAndSelectPlayingTrack pp s).current_track_index = 0 ∧
      s.playlist ≠ []) := by
  unfold findAndSelectPlayingTrack
  dsimp only
  split_ifs with h1 h2 h3
  · rcases newPlayingIndex_spec s.listbox_path_map (pp.getD "") with h | ⟨i, hi, he⟩
    · exact absurd h h1
    · exact Or.inr (Or.inl ⟨i, hi, he⟩)
  · exact Or.inl rfl
  · exact Or.inr (Or.inr ⟨rfl, h3⟩)
  · exact Or.inl rfl

theorem cursorOK_findAndSelect (pp : Option String) (s : AppState)
    (hmap : s.listbox_path_map = s.playlist) :
    cursorOK (findAndSelectPlayingTrack pp s) := by
  have hpl := findAndSelect_playlist pp s
  rcases findAndSelect_current pp s with h | ⟨i, hfound, h⟩ | ⟨h, hne⟩
  · exact Or.inl h
  · refine Or.inr ⟨?_, ?_⟩
    · rw [h]; omega
    · rw [h, hpl]
      have := lastIndexOf_lt hfound
      rw [hmap] at this
      omega
  · refine Or.inr ⟨by rw [h], ?_⟩
    rw [h, hpl]
    have : 0 < s.playlist.length := List.length_pos.mpr hne
    omega

/-- The optimisation branch: an unforced recompute with unchanged search term
and shuffle flag is a no-op (src/main.py lines 1621-1627). -/
theorem apply_skip (f : List String → List String) (s : AppState)
    (h1 : s.current_search_term = s.last_applied_search)
    (h2 : s.is_shuffled = s.last_applied_shuffle) :
    applyFiltersAndShuffle f false s = s := by
  unfold applyFiltersAndShuffle
  rw [if_pos ⟨rfl, h1, h2⟩]

/-- The recompute branch, written through `deriveView` and
`findAndSelectPlayingTrack`. -/
theorem apply_recompute (f : List String → List String) (force : Bool)
    (s : AppState)
    (h : ¬ (force = false ∧ s.current_search_term = s.last_applied_search ∧
        s.is_shuffled = s.last_applied_shuffle)) :
    applyFiltersAndShuffle f force s =
      { findAndSelectPlayingTrack
          (if s.playing_state ≠ .stopped ∧ s.current_track_index ≠ -1 then
            mapGet s.listbox_path_map s.current_track_index
          else none)
          { s with
            playlist := deriveView f s
            listbox_path_map := deriveView f s } with
        last_applied_search := s.current_search_term
        last_applied_shuffle := s.is_shuffled } := by
  unfold applyFiltersAndShuffle deriveView
  rw [if_neg h]

/-- After any call of `_apply_filters_and_shuffle` the recorded last-applied
search term and shuffle flag agree with the current ones. -/
theorem apply_sync (f : List String → List String) (force : Bool)
    (s : AppState) :
    (applyFiltersAndShuffle f force s).current_search_term =
      (applyFiltersAndShuffle f force s).last_applied_search ∧
    (applyFiltersAndShuffle f force s).is_shuffled =
      (applyFiltersAndShuffle f force s).last_applied_shuffle := by
  by_cases hc : force = false ∧ s.current_search_term = s.last_applied_search ∧
      s.is_shuffled = s.last_applied_shuffle
  · unfold applyFiltersAndShuffle
    rw [if_pos hc]
    exact ⟨hc.2.1, hc.2.2⟩
  · rw [apply_recompute f force s hc]
    obtain ⟨i, hi⟩ := findAndSelect_frame
      (if s.playing_state ≠ .stopped ∧ s.current_track_index ≠ -1 then
        mapGet s.listbox_path_map s.current_track_index
      else none)
      { s with playlist := deriveView f s, listbox_path_map := deriveView f s }
    rw [hi]
    exact ⟨rfl, rfl⟩

/-- In the recompute branch the new view is the filter-and-shuffle
derivation of the master list. -/
theorem apply_playlist (f : List String → List String) (force : Bool)
    (s : AppState)
    (h : ¬ (force = false ∧ s.current_search_term = s.last_applied_search ∧
        s.is_shuffled = s.last_applied_shuffle)) :
    (applyFiltersAndShuffle f force s).playlist = deriveView f s := by
  rw [apply_recompute f force s h]
  obtain ⟨i, hi⟩ := findAndSelect_frame
    (if s.playing_state ≠ .stopped ∧ s.current_track_index ≠ -1 then
      mapGet s.listbox_path_map s.current_track_index
    else none)
    { s with playlist := deriveView f s, listbox_path_map := deriveView f s }
  rw [hi]

/-- The view recompute preserves the master list and the playback state. -/
theorem apply_frame (f : List String → List String) (force : Bool)
    (s : AppState) :
    (applyFiltersAndShuffle f force s).original_playlist_order =
      s.original_playlist_order ∧
    (applyFiltersAndShuffle f force s).playing_state = s.playing_state ∧
    (applyFiltersAndShuffle f force s).loaded_path = s.loaded_path := by
  by_cases hc : force = false ∧ s.current_search_term = s.last_applied_search ∧
      s.is_shuffled = s.last_applied_shuffle
  · unfold applyFiltersAndShuffle
    rw [if_pos hc]
    exact ⟨rfl, rfl, rfl⟩
  · rw [apply_recompute f force s hc]
    obtain ⟨i, hi⟩ := findAndSelect_frame
      (if s.playing_state ≠ .stopped ∧ s.current_track_index ≠ -1 then
        mapGet s.listbox_path_map s.current_track_index
      else none)
      { s with playlist := deriveView f s, listbox_path_map := deriveView f s }
    rw [hi]
    exact ⟨rfl, rfl, rfl⟩

theorem cursorOK_apply (f : List String → List String) (force : Bool)
    (s : AppState) (h : cursorOK s) :
    cursorOK (applyFiltersAndShuffle f force s) := by
  by_cases hc : force = false ∧ s.current_search_term = s.last_applied_search ∧
      s.is_shuffled = s.last_applied_shuffle
  · unfold applyFiltersAndShuffle
    rw [if_pos hc]
    exact h
  · rw [apply_recompute f force s hc]
    have := cursorOK_findAndSelect
      (if s.playing_state ≠ .stopped ∧ s.current_track_index ≠ -1 then
        mapGet s.listbox_path_map s.current_track_index
      else none)
      { s with playlist := deriveView f s, listbox_path_map := deriveView f s }
      rfl
    obtain ⟨i, hi⟩ := findAndSelect_frame
      (if s.playing_state ≠ .stopped ∧ s.current_track_index ≠ -1 then
        mapGet s.listbox_path_map s.current_track_index
      else none)
      { s with playlist := deriveView f s, listbox_path_map := deriveView f s }
    rw [hi] at this ⊢
    simpa [cursorOK] using this

theorem cursorOK_stopTrack (s : AppState) (h : cursorOK s) :
    cursorOK (stopTrack s) := by
  simpa [cursorOK, stopTrack] using h

theorem cursorOK_remove (f : List String → List String) (p : String)
    (s : AppState) (h : cursorOK s) :
    cursorOK (removeTrackFromPlaylist f p s) := by
  unfold removeTrackFromPlaylist
  dsimp only
  split_ifs with h1 h2 h3
  · exact h
  · exact cursorOK_apply f false _ (by simpa [cursorOK] using h)
  · exact Or.inl rfl
  · exact h

/-- Defensive stop on an out-of-range play request. -/
theorem validate_invalid (fs : String → Bool) (rd : Bool)
    (f : List String → List String) (idx : Int) (s : AppState)
    (h : s.playlist = [] ∨ ¬ (0 ≤ idx ∧ idx < (s.playlist.length : Int))) :
    validateTrackForPlayback fs rd f idx s = (none, stopTrack s) := by
  unfold validateTrackForPlayback
  rw [if_pos h]

/-- A missing file aborts validation; the state left behind depends on the
user's answer to the removal prompt. -/
theorem validate_missing (fs : String → Bool) (rd : Bool)
    (f : List String → List String) (idx : Int) (s : AppState)
    (h : ¬ (s.playlist = [] ∨ ¬ (0 ≤ idx ∧ idx < (s.playlist.length : Int))))
    (hm : (mapGet s.listbox_path_map idx).getD "" = "" ∨
      fs ((mapGet s.listbox_path_map idx).getD "") = false) :
    validateTrackForPlayback fs rd f idx s =
      (none, stopTrack (if rd then
        removeTrackFromPlaylist f ((mapGet s.listbox_path_map idx).getD "") s
      else s)) := by
  unfold validateTrackForPlayback
  rw [if_neg h]
  dsimp only
  rw [if_pos hm]
  cases rd <;> simp

/-- Successful validation returns the resolved path and leaves the state
untouched. -/
theorem validate_ok (fs : String → Bool) (rd : Bool)
    (f : List String → List String) (idx : Int) (s : AppState)
    (h : ¬ (s.playlist = [] ∨ ¬ (0 ≤ idx ∧ idx < (s.playlist.length : Int))))
    (hm : ¬ ((mapGet s.listbox_path_map idx).getD "" = "" ∨
      fs ((mapGet s.listbox_path_map idx).getD "") = false)) :
    validateTrackForPlayback fs rd f idx s =
      (some ((mapGet s.listbox_path_map idx).getD ""), s) := by
  unfold validateTrackForPlayback
  rw [if_neg h]
  dsimp only
  rw [if_neg hm]

/-- A failed validation makes `play_track` return the state the validator
left behind. -/
theorem playTrack_of_validate_none (fs : String → Bool) (rd : Bool)
    (f : List String → List String) (idx : Int) (s s1 : AppState)
    (hv : validateTrackForPlayback fs rd f idx s = (none, s1)) :
    playTrack fs rd f idx s = s1 := by
  unfold playTrack
  rw [hv]

/-- A validated play request starts playback of the resolved path at the
requested position, touching nothing but the history, the cursor, the loaded
file and the playback state. -/
theorem playTrack_success (fs : String → Bool) (rd : Bool)
    (f : List String → List String) (idx : Int) (s : AppState) (p : String)
    (h0 : 0 ≤ idx) (hlt : idx < (s.playlist.length : Int))
    (hfp : mapGet s.listbox_path_map idx = some p) (hne : p ≠ "")
    (hfs : fs p = true) :
    ∃ hist, playTrack fs rd f idx s =
      { s with
        playback_history := hist
        current_track_index := idx
        loaded_path := some p
        playing_state := .playing } := by
  have hnil : s.playlist ≠ [] := by
    intro he
    rw [he] at hlt
    simp at hlt
    omega
  have hval := validate_ok fs rd f idx s
    (by push_neg; exact ⟨hnil, h0, hlt⟩)
    (by rw [hfp]; push_neg; exact ⟨hne, by simp [hfs]⟩)
  rw [hfp] at hval
  unfold playTrack
  rw [hval]
  dsimp only
  split_ifs <;> exact ⟨_, rfl⟩

theorem cursorOK_playTrack (fs : String → Bool) (rd : Bool)
    (f : List String → List String) (idx : Int) (s : AppState)
    (h : cursorOK s) : cursorOK (playTrack fs rd f idx s) := by
  by_cases hA : s.playlist = [] ∨ ¬ (0 ≤ idx ∧ idx < (s.playlist.length : Int))
  · rw [playTrack_of_validate_none fs rd f idx s _
      (validate_invalid fs rd f idx s hA)]
    exact cursorOK_stopTrack s h
  · by_cases hB : (mapGet s.listbox_path_map idx).getD "" = "" ∨
        fs ((mapGet s.listbox_path_map idx).getD "") = false
    · rw [playTrack_of_validate_none fs rd f idx s _
        (validate_missing fs rd f idx s hA hB)]
      cases rd
      · simpa using cursorOK_stopTrack s h
      · simp only [if_true]
        exact cursorOK_stopTrack _ (cursorOK_remove f _ s h)
    · push_neg at hA hB
      obtain ⟨hne, hfs⟩ := hB
      have hfp : mapGet s.listbox_path_map idx =
          some ((mapGet s.listbox_path_map idx).getD "") := by
        cases hm : mapGet s.listbox_path_map idx with
        | none => rw [hm] at hne; simp at hne
        | some q => simp
      obtain ⟨hist, hrw⟩ := playTrack_success fs rd f idx s _ hA.2.1
        hA.2.2 hfp hne (by simpa using hfs)
      rw [hrw]
      right
      exact ⟨hA.2.1, hA.2.2⟩

theorem cursorOK_nextTrack (fs : String → Bool) (rd : Bool)
    (f : List String → List String) (ev : Bool) (s : AppState)
    (h : cursorOK s) : cursorOK (nextTrack fs rd f ev s).1 := by
  unfold nextTrack
  dsimp only
  split_ifs <;>
    first
      | exact h
      | exact cursorOK_playTrack fs rd f _ s h

theorem cursorOK_popCandidate (s : AppState) (h : cursorOK s) :
    cursorOK (popCandidate s).2 := by
  unfold popCandidate
  dsimp only
  split_ifs <;> simpa [cursorOK] using h

theorem cursorOK_prevTrack (fs : String → Bool) (rd : Bool)
    (f : List String → List String) (rc : Bool) (s : AppState)
    (h : cursorOK s) : cursorOK (prevTrack fs rd f rc s) := by
  unfold prevTrack
  dsimp only
  split_ifs <;>
    first
      | exact h
      | exact cursorOK_playTrack fs rd f _ s h
      | exact cursorOK_playTrack fs rd f _ _ (cursorOK_popCandidate s h)
      | exact cursorOK_stopTrack _ (cursorOK_popCandidate s h)

theorem cursorOK_playFrom (fs : String → Bool) (rd : Bool)
    (f : List String → List String) (sel : Option Nat) (s : AppState)
    (h : cursorOK s) : cursorOK (playFromSelectionOrStart fs rd f sel s) := by
  unfold playFromSelectionOrStart
  dsimp only
  split_ifs <;> first | exact h | exact cursorOK_playTrack fs rd f _ s h

theorem cursorOK_toggle (fs : String → Bool) (rd : Bool)
    (f : List String → List String) (sel : Option Nat) (s : AppState)
    (h : cursorOK s) : cursorOK (togglePlayPause fs rd f sel s) := by
  unfold togglePlayPause
  split_ifs
  · exact h
  · cases hps : s.playing_state
    · exact cursorOK_playFrom fs rd f sel s h
    · exact Or.imp id id h
    · exact Or.imp id id h

theorem cursorOK_add (fs : String → Bool) (norm : String → String)
    (f : List String → List String) (files : List String) (s : AppState)
    (h : cursorOK s) : cursorOK (addFilesToPlaylist fs norm f files s) := by
  unfold addFilesToPlaylist
  dsimp only
  have h1 : cursorOK (applyFiltersAndShuffle f false
      { s with original_playlist_order :=
          (addLoop fs norm files s.original_playlist_order).1 }) := by
    apply cursorOK_apply
    simpa [cursorOK] using h
  split_ifs with hA hB hC
  · exact h
  · right
    constructor
    · show (0 : Int) ≤ 0
      exact le_refl 0
    · show (0 : Int) < ((applyFiltersAndShuffle f false
        { s with original_playlist_order :=
            (addLoop fs norm files s.original_playlist_order).1
        }).playlist.length : Int)
      exact_mod_cast List.length_pos.mpr hC
  · exact h1
  · exact h1

theorem cursorOK_search (f : List String → List String) (raw : String)
    (s : AppState) (h : cursorOK s) :
    cursorOK (searchPlaylistAction f raw s) := by
  unfold searchPlaylistAction
  exact cursorOK_apply f false _ (by simpa [cursorOK] using h)

theorem cursorOK_clearSearch (f : List String → List String) (s : AppState)
    (h : cursorOK s) : cursorOK (clearSearchAction f s) := by
  unfold clearSearchAction
  exact cursorOK_apply f false _ (by simpa [cursorOK] using h)

theorem cursorOK_toggleShuffle (f : List String → List String) (s : AppState)
    (h : cursorOK s) : cursorOK (toggleShuffle f s) := by
  unfold toggleShuffle
  exact cursorOK_apply f false _ (by simpa [cursorOK] using h)

theorem cursorOK_sort (keyOf : String → String)
    (f : List String → List String) (s : AppState) (h : cursorOK s) :
    cursorOK (sortPlaylistAction keyOf f s) := by
  unfold sortPlaylistAction
  split_ifs
  · exact h
  · exact cursorOK_apply f false _ (by simpa [cursorOK] using h)

theorem cursorOK_setRepeat (m : Nat) (s : AppState) (h : cursorOK s) :
    cursorOK (setRepeatMode m s) := by
  simpa [cursorOK, setRepeatMode] using h

theorem cursorOK_cycleRepeat (s : AppState) (h : cursorOK s) :
    cursorOK (cycleRepeatMode s) := by
  simpa [cursorOK, cycleRepeatMode] using h

theorem cursorOK_load (fs : String → Bool) (norm : String → String)
    (f : List String → List String) (lines : List String) (confirm : Bool)
    (s : AppState) (h : cursorOK s) :
    cursorOK (loadPlaylistAction fs norm f lines confirm s) := by
  unfold loadPlaylistAction
  dsimp only
  split_ifs
  · exact h
  · exact cursorOK_add fs norm f _ _ (Or.inl rfl)
  · exact h

/-- C1 (code bug): the claim — and the source's own documentation of
`force_refresh` — require a forced view recompute after mutating the master
list, but no caller of `_apply_filters_and_shuffle` ever passes
`force_refresh=True`, so with unchanged search term and shuffle flag the
recompute is skipped: after adding `/a.mp3` to an empty player the master
list holds the track while the displayed view stays empty, differing from
the filter-and-shuffle derivation of the updated master list (which a forced
recompute would install). -/
theorem c1_mutation_skips_view_refresh :
    (addFilesToPlaylist fsTrue idNorm idPerm ["/a.mp3"]
        initialState).original_playlist_order = ["/a.mp3"] ∧
    (addFilesToPlaylist fsTrue idNorm idPerm ["/a.mp3"]
        initialState).playlist = [] ∧
    deriveView idPerm
        (addFilesToPlaylist fsTrue idNorm idPerm ["/a.mp3"] initialState) =
      ["/a.mp3"] ∧
    (applyFiltersAndShuffle idPerm true
        (addFilesToPlaylist fsTrue idNorm idPerm ["/a.mp3"]
          initialState)).playlist = ["/a.mp3"] := by
  decide

/-- C3 counterexample: `c3State` is reachable, its playback state is Playing,
the audibly playing file `/bb.ogg` is present in the displayed view, yet the
cursor is unset (`-1`), not a valid view position — the claimed invariant
fails on the code. -/
theorem c3_counterexample :
    Reachable c3State ∧ c3State.playing_state = .playing ∧
    c3State.loaded_path = some "/bb.ogg" ∧
    "/bb.ogg" ∈ c3State.playlist ∧
    c3State.current_track_index = -1 := by
  refine ⟨?_, by decide, by decide, by decide, by decide⟩
  exact Reachable.search idPerm "b"
    (Reachable.clearSearch idPerm
      (Reachable.search idPerm "a"
        (Reachable.play fsTrue false idPerm 1
          (Reachable.shuffle idPerm
            (Reachable.shuffle idPerm
              (Reachable.add fsTrue idNorm idPerm
                ["/aa.ogg", "/bb.ogg"] Reachable.init))))))

/-- C3 (amended): in every reachable state the playback cursor is either
unset (`-1`) or satisfies `0 ≤ currentIndex < len(view)`; cursor resolution
re-establishes this bound after every view recompute.  The original
presence-of-the-playing-path condition is dropped: as `c3_counterexample`
shows, the cursor can be unset while the loaded track is present in the
view, because resolution captures the path at the old cursor, not the
audibly playing path. -/
theorem c3_cursor_bound_invariant (s : AppState) (h : Reachable s) :
    cursorOK s := by
  induction h with
  | init => exact Or.inl rfl
  | add fs norm f files hr ih => exact cursorOK_add fs norm f files _ ih
  | remove f path hr ih => exact cursorOK_remove f path _ ih
  | sort keyOf f hr ih => exact cursorOK_sort keyOf f _ ih
  | search f raw hr ih => exact cursorOK_search f raw _ ih
  | clearSearch f hr ih => exact cursorOK_clearSearch f _ ih
  | shuffle f hr ih => exact cursorOK_toggleShuffle f _ ih
  | repeatSet m hr ih => exact cursorOK_setRepeat m _ ih
  | repeatCycle hr ih => exact cursorOK_cycleRepeat _ ih
  | play fs rd f idx hr ih => exact cursorOK_playTrack fs rd f idx _ ih
  | next fs rd f ev hr ih => exact cursorOK_nextTrack fs rd f ev _ ih
  | prev fs rd f rc hr ih => exact cursorOK_prevTrack fs rd f rc _ ih
  | toggle fs rd f sel hr ih => exact cursorOK_toggle fs rd f sel _ ih
  | stop hr ih => exact cursorOK_stopTrack _ ih
  | load fs norm f lines confirm hr ih =>
    exact cursorOK_load fs norm f lines confirm _ ih

theorem c3_cursor_bound_invariant_witness :
    Reachable initialState ∧ cursorOK initialState :=
  ⟨Reachable.init, c3_cursor_bound_invariant initialState Reachable.init⟩

/-- C5: with master list `[A, B, C]`, repeat off, shuffle off, playing A,
three automatic advances play B, then C, then stop with the "End of
playlist" notice reported exactly on the third; a manual next at the last
view position is a complete no-op (state unchanged, nothing reported). -/
theorem c5_auto_advance_sequence :
    c5Start.loaded_path = some "/A.mp3" ∧
    c5Start.current_track_index = 0 ∧
    c5Start.playing_state = .playing ∧
    c5Start.repeat_mode = REPEAT_OFF ∧
    c5Start.is_shuffled = false ∧
    (nextTrack fsTrue false idPerm true c5Start).1.loaded_path =
      some "/B.mp3" ∧
    (nextTrack fsTrue false idPerm true c5Start).2 = false ∧
    (nextTrack fsTrue false idPerm true
        (nextTrack fsTrue false idPerm true c5Start).1).1.loaded_path =
      some "/C.mp3" ∧
    (nextTrack fsTrue false idPerm true
        (nextTrack fsTrue false idPerm true c5Start).1).2 = false ∧
    (nextTrack fsTrue false idPerm true
        (nextTrack fsTrue false idPerm true
          (nextTrack fsTrue false idPerm true c5Start).1).1).1.playing_state =
      .stopped ∧
    (nextTrack fsTrue false idPerm true
        (nextTrack fsTrue false idPerm true
          (nextTrack fsTrue false idPerm true c5Start).1).1).2 = true ∧
    (nextTrack fsTrue false idPerm false
        (nextTrack fsTrue false idPerm true
          (nextTrack fsTrue false idPerm true c5Start).1).1) =
      ((nextTrack fsTrue false idPerm true
          (nextTrack fsTrue false idPerm true c5Start).1).1, false) := by
  decide

/-- C8: a second, unforced view recompute directly after any recompute is the
identity, for every permutation `g` the second shuffle draw could have
produced — so an unchanged search term and shuffle flag never reshuffle the
view. -/
theorem c8_noop_recompute_identity (f g : List String → List String)
    (force : Bool) (s : AppState) :
    applyFiltersAndShuffle g false (applyFiltersAndShuffle f force s) =
      applyFiltersAndShuffle f force s :=
  apply_skip g _ (apply_sync f force s).1 (apply_sync f force s).2

/-- C6: playing a valid view position whose resolved path is missing on disk
triggers the removal prompt (the `removeDecision` parameter of the model);
when the user declines, playback transitions to Stopped and the master list
is left completely unchanged. -/
theorem c6_missing_file_decline (fs : String → Bool)
    (f : List String → List String) (idx : Int) (s : AppState) (p : String)
    (hb : 0 ≤ idx ∧ idx < (s.playlist.length : Int))
    (hfp : mapGet s.listbox_path_map idx = some p)
    (hfs : fs p = false) :
    (playTrack fs false f idx s).playing_state = .stopped ∧
    (playTrack fs false f idx s).original_playlist_order =
      s.original_playlist_order := by
  have hnil : s.playlist ≠ [] := by
    intro he
    rw [he] at hb
    simp at hb
    omega
  have hv := validate_missing fs false f idx s (by push_neg; exact ⟨hnil, hb⟩)
    (Or.inr (by rw [hfp]; simpa using hfs))
  rw [playTrack_of_validate_none fs false f idx s _ (by simpa using hv)]
  exact ⟨rfl, rfl⟩

theorem c6_missing_file_decline_witness :
    (0 ≤ (0 : Int) ∧ (0 : Int) < (([("/gone.mp3")].length : Int))) ∧
    (playTrack (fun _ => false) false idPerm 0
        { initialState with
          playlist := ["/gone.mp3"]
          listbox_path_map := ["/gone.mp3"]
          original_playlist_order := ["/gone.mp3"] }).playing_state =
      .stopped ∧
    (playTrack (fun _ => false) false idPerm 0
        { initialState with
          playlist := ["/gone.mp3"]
          listbox_path_map := ["/gone.mp3"]
          original_playlist_order := ["/gone.mp3"] }).original_playlist_order =
      ["/gone.mp3"] :=
  ⟨⟨by decide, by decide⟩,
    c6_missing_file_decline (fun _ => false) idPerm 0
      { initialState with
        playlist := ["/gone.mp3"]
        listbox_path_map := ["/gone.mp3"]
        original_playlist_order := ["/gone.mp3"] }
      "/gone.mp3" ⟨by decide, by decide⟩ (by decide) rfl⟩

/-- C7 counterexample: for a file missing on disk, `get_track_metadata`
returns title `"[Missing] <basename>"` with empty artist and album — not the
basename / "Unknown Artist" / "Unknown Album" fallbacks the claim states. -/
theorem c7_counterexample :
    (getTrackMetadata (fun _ => false) (fun _ => Except.error ())
        "/m/song.ogg").artist ≠ "Unknown Artist" ∧
    (getTrackMetadata (fun _ => false) (fun _ => Except.error ())
        "/m/song.ogg").album ≠ "Unknown Album" ∧
    (getTrackMetadata (fun _ => false) (fun _ => Except.error ())
        "/m/song.ogg").title ≠ basename "/m/song.ogg" := by
  decide

/-- C7 (amended): the metadata read is total and never escalates: a missing
file yields title `"[Missing] <basename>"`, empty artist and album and zero
duration; an `.mp3` always degrades to `"<basename> (Meta Error)"` with the
Unknown fallbacks (the `ID3` name is never imported, so the tag read raises
`NameError` into the catch-all handler); a corrupt non-mp3 file (mutagen
constructor error) and an unsupported extension yield exactly the claimed
fallbacks: basename, "Unknown Artist", "Unknown Album", zero duration. -/
theorem c7_metadata_fallbacks (fs : String → Bool)
    (reader : String → Except Unit TagData) (p : String) :
    (fs p = false →
      getTrackMetadata fs reader p =
        { title := "[Missing] " ++ basename p, artist := "", album := "",
          duration := 0, art_data := none }) ∧
    (fs p = true → toLowerStr (extOf p) = ".mp3" →
      getTrackMetadata fs reader p =
        { title := basename p ++ " (Meta Error)", artist := "Unknown Artist",
          album := "Unknown Album", duration := 0, art_data := none }) ∧
    (fs p = true → reader p = Except.error () →
      toLowerStr (extOf p) ≠ ".mp3" →
      getTrackMetadata fs reader p =
        { title := basename p, artist := "Unknown Artist",
          album := "Unknown Album", duration := 0, art_data := none }) ∧
    (fs p = true → toLowerStr (extOf p) ≠ ".mp3" →
      toLowerStr (extOf p) ≠ ".ogg" → toLowerStr (extOf p) ≠ ".flac" →
      toLowerStr (extOf p) ≠ ".wav" →
      getTrackMetadata fs reader p =
        { title := basename p, artist := "Unknown Artist",
          album := "Unknown Album", duration := 0, art_data := none }) := by
  refine ⟨?_, ?_, ?_, ?_⟩
  · intro hfs
    unfold getTrackMetadata
    rw [if_pos hfs]
  · intro hfs hext
    unfold getTrackMetadata
    rw [if_neg (by simp [hfs])]
    dsimp only
    rw [if_pos hext]
  · intro hfs hr hmp3
    unfold getTrackMetadata
    rw [if_neg (by simp [hfs])]
    dsimp only
    rw [if_neg hmp3]
    by_cases hog : toLowerStr (extOf p) = ".ogg" ∨ toLowerStr (extOf p) = ".flac"
    · rw [if_pos hog, hr]
    · rw [if_neg hog]
      by_cases hwav : toLowerStr (extOf p) = ".wav"
      · rw [if_pos hwav, hr]
      · rw [if_neg hwav]
  · intro hfs hmp3 hogg hflac hwav
    unfold getTrackMetadata
    rw [if_neg (by simp [hfs])]
    dsimp only
    rw [if_neg hmp3, if_neg (by tauto), if_neg hwav]

theorem c7_metadata_fallbacks_witness :
    getTrackMetadata (fun _ => false) (fun _ => Except.error ()) "/m/b.flac" =
      { title := "[Missing] " ++ basename "/m/b.flac", artist := "",
        album := "", duration := 0, art_data := none } :=
  (c7_metadata_fallbacks (fun _ => false) (fun _ => Except.error ())
    "/m/b.flac").1 rfl

/-- Keeping lines that are their own strip, non-empty and not
`#`-comments, the playlist line filter is the identity. -/
theorem parse_lines_id :
    ∀ l : List String,
      (∀ p ∈ l, trimStr p = p ∧ p ≠ "" ∧ startsWithStr p "#" = false) →
      parsePlaylistLines l = l
  | [], _ => rfl
  | a :: l, hp => by
    obtain ⟨h1, h2, h3⟩ := hp a (List.mem_cons_self a l)
    have ih := parse_lines_id l (fun p hm => hp p (List.mem_cons_of_mem a hm))
    unfold parsePlaylistLines at ih ⊢
    rw [List.filterMap_cons, if_pos ⟨by rw [h1]; exact h2, h3⟩]
    rw [h1, ih]

/-- Normal-form paths pass the load-time normalisation unchanged, so the
existence filter is a plain filter. -/
theorem load_filter_id (fs : String → Bool) (norm : String → String) :
    ∀ l : List String, (∀ p ∈ l, norm p = p) →
      l.filterMap (fun p => if fs (norm p) then some (norm p) else none) =
        l.filter fs
  | [], _ => rfl
  | a :: l, hp => by
    have h1 := hp a (List.mem_cons_self a l)
    have ih := load_filter_id fs norm l
      (fun p hm => hp p (List.mem_cons_of_mem a hm))
    rw [List.filterMap_cons, List.filter_cons]
    cases hfa : fs a <;> simp [h1, hfa, ih]

/-- C9: saving writes a single `#EXTM3U` header line followed by one path
per line, and loading that file back — ignoring `#`-lines — returns the same
ordered master list minus exactly the entries missing from disk at load
time.  The hypotheses record that master-list entries are non-empty
normalised paths without surrounding whitespace or a leading `#`. -/
theorem c9_save_load_roundtrip (fs : String → Bool) (norm : String → String)
    (l : List String) (hl : l ≠ [])
    (hp : ∀ p ∈ l, trimStr p = p ∧ p ≠ "" ∧ startsWithStr p "#" = false ∧
      norm p = p) :
    savePlaylistLines l = some ("#EXTM3U" :: l) ∧
    loadExistingPaths fs norm ("#EXTM3U" :: l) = l.filter fs := by
  constructor
  · unfold savePlaylistLines
    rw [if_neg hl]
  · have hparse : parsePlaylistLines ("#EXTM3U" :: l) = l := by
      have hhead : parsePlaylistLines ("#EXTM3U" :: l) =
          parsePlaylistLines l := by
        unfold parsePlaylistLines
        rw [List.filterMap_cons, if_neg (by decide)]
      rw [hhead]
      exact parse_lines_id l
        (fun p hm => ⟨(hp p hm).1, (hp p hm).2.1, (hp p hm).2.2.1⟩)
    unfold loadExistingPaths
    rw [hparse]
    exact load_filter_id fs norm l (fun p hm => (hp p hm).2.2.2)

theorem c9_save_load_roundtrip_witness :
    savePlaylistLines ["/a.mp3", "/b.mp3"] =
      some ["#EXTM3U", "/a.mp3", "/b.mp3"] ∧
    loadExistingPaths (fun p => !(p == "/b.mp3")) idNorm
        ["#EXTM3U", "/a.mp3", "/b.mp3"] = ["/a.mp3"] := by
  have h := c9_save_load_roundtrip (fun p => !(p == "/b.mp3")) idNorm
    ["/a.mp3", "/b.mp3"] (by decide) (by decide)
  exact ⟨h.1, by rw [h.2]; decide⟩

/-- C10: `stop_track` leaves the cursor untouched, and a subsequent
play/pause toggle from Stopped with no listbox selection restarts playback
at that same cursor position (not at position 0). -/
theorem c10_stop_keeps_cursor (fs : String → Bool) (rd : Bool)
    (f : List String → List String) (s : AppState) (i : Nat) (p : String)
    (hcur : s.current_track_index = (i : Nat))
    (hlt : i < s.playlist.length)
    (hfp : mapGet s.listbox_path_map (i : Int) = some p)
    (hne : p ≠ "") (hfs : fs p = true) :
    (stopTrack s).current_track_index = s.current_track_index ∧
    (togglePlayPause fs rd f none (stopTrack s)).current_track_index =
      (i : Int) ∧
    (togglePlayPause fs rd f none (stopTrack s)).playing_state = .playing ∧
    (togglePlayPause fs rd f none (stopTrack s)).loaded_path = some p := by
  refine ⟨rfl, ?_⟩
  have hnil : (stopTrack s).playlist ≠ [] := by
    show s.playlist ≠ []
    intro he
    rw [he] at hlt
    simp at hlt
  unfold togglePlayPause
  rw [if_neg hnil]
  show (playFromSelectionOrStart fs rd f none (stopTrack s)).current_track_index
      = (i : Int) ∧ _
  unfold playFromSelectionOrStart
  dsimp only
  have hc : (stopTrack s).current_track_index = (i : Int) := hcur
  rw [hc, if_pos (by omega : (i : Int) ≠ -1)]
  obtain ⟨hist, hrw⟩ := playTrack_success fs rd f (i : Int) (stopTrack s) p
    (by omega) (by show (i : Int) < (s.playlist.length : Int); omega)
    hfp hne hfs
  rw [hrw]
  exact ⟨rfl, rfl, rfl⟩

theorem c10_stop_keeps_cursor_witness :
    (stopTrack { initialState with
        playlist := ["/x.ogg", "/y.ogg"]
        listbox_path_map := ["/x.ogg", "/y.ogg"]
        current_track_index := 1
        playing_state := .playing }).current_track_index = 1 ∧
    (togglePlayPause fsTrue false idPerm none
        (stopTrack { initialState with
          playlist := ["/x.ogg", "/y.ogg"]
          listbox_path_map := ["/x.ogg", "/y.ogg"]
          current_track_index := 1
          playing_state := .playing })).current_track_index = 1 ∧
    (togglePlayPause fsTrue false idPerm none
        (stopTrack { initialState with
          playlist := ["/x.ogg", "/y.ogg"]
          listbox_path_map := ["/x.ogg", "/y.ogg"]
          current_track_index := 1
          playing_state := .playing })).loaded_path = some "/y.ogg" := by
  have h := c10_stop_keeps_cursor fsTrue false idPerm
    { initialState with
      playlist := ["/x.ogg", "/y.ogg"]
      listbox_path_map := ["/x.ogg", "/y.ogg"]
      current_track_index := 1
      playing_state := .playing } 1 "/y.ogg"
    (by decide) (by decide) (by decide) (by decide) rfl
  exact ⟨h.1, h.2.1, h.2.2.2⟩

/-- C4: with repeat mode RepeatOne and the cursor at a valid view position,
an automatic end-of-track advance re-targets the same position and reloads
the same track, while a manual next from the same state advances to the
following view position (which the hypotheses require to exist) and loads
its track. -/
theorem c4_repeat_one_advance (fs : String → Bool) (rd : Bool)
    (f : List String → List String) (s : AppState) (i : Nat)
    (hmode : s.repeat_mode = REPEAT_ONE)
    (hcur : s.current_track_index = (i : Int))
    (hmap : s.listbox_path_map = s.playlist)
    (hlen : i + 1 < s.playlist.length)
    (hok : ∀ p ∈ s.playlist, p ≠ "" ∧ fs p = true) :
    ((nextTrack fs rd f true s).1.current_track_index = (i : Int) ∧
     (nextTrack fs rd f true s).1.loaded_path = s.playlist[i]? ∧
     (nextTrack fs rd f true s).1.playing_state = .playing) ∧
    ((nextTrack fs rd f false s).1.current_track_index = (i : Int) + 1 ∧
     (nextTrack fs rd f false s).1.loaded_path = s.playlist[i + 1]? ∧
     (nextTrack fs rd f false s).1.playing_state = .playing) := by
  have hnil : s.playlist ≠ [] := by
    intro he
    rw [he] at hlen
    simp at hlen
  have hilt : i < s.playlist.length := by omega
  have hgi : s.playlist[i]? = some s.playlist[i] := List.getElem?_eq_getElem hilt
  have hgj : s.playlist[i + 1]? = some s.playlist[i + 1] :=
    List.getElem?_eq_getElem hlen
  have hmg1 : mapGet s.listbox_path_map (i : Int) = s.playlist[i]? := by
    have h2 : ((i : Int)).toNat = i := by omega
    simp only [mapGet]
    rw [if_pos (by omega : (0 : Int) ≤ (i : Int)), h2, hmap]
  have hmg2 : mapGet s.listbox_path_map ((i : Int) + 1) = s.playlist[i + 1]? := by
    have h2 : ((i : Int) + 1).toNat = i + 1 := by omega
    simp only [mapGet]
    rw [if_pos (by omega : (0 : Int) ≤ (i : Int) + 1), h2, hmap]
  have hoki := hok s.playlist[i] (s.playlist.getElem_mem hilt)
  have hokj := hok s.playlist[i + 1] (s.playlist.getElem_mem hlen)
  obtain ⟨hist1, hrw1⟩ := playTrack_success fs rd f (i : Int) s s.playlist[i]
    (by omega) (by omega) (hmg1.trans hgi) hoki.1 hoki.2
  obtain ⟨hist2, hrw2⟩ := playTrack_success fs rd f ((i : Int) + 1) s
    s.playlist[i + 1] (by omega) (by omega) (hmg2.trans hgj) hokj.1 hokj.2
  constructor
  · unfold nextTrack
    rw [if_neg hnil]
    dsimp only
    rw [if_pos ⟨hmode, rfl⟩, hcur, if_pos (by omega : (i : Int) ≠ -1), hrw1]
    exact ⟨rfl, by rw [hgi], rfl⟩
  · unfold nextTrack
    rw [if_neg hnil]
    dsimp only
    rw [if_neg (by simp [REPEAT_ONE] : ¬ (s.repeat_mode = REPEAT_ONE ∧
        false = true)), hcur,
      if_pos (by omega : (i : Int) < (s.playlist.length : Int) - 1),
      if_pos (by omega : (i : Int) + 1 ≠ -1), hrw2]
    exact ⟨rfl, by rw [hgj], rfl⟩

theorem c4_repeat_one_advance_witness :
    ((nextTrack fsTrue false idPerm true
        { initialState with
          playlist := ["/x.ogg", "/y.ogg"]
          listbox_path_map := ["/x.ogg", "/y.ogg"]
          current_track_index := 0
          repeat_mode := REPEAT_ONE
          playing_state := .playing }).1.current_track_index = 0 ∧
      (nextTrack fsTrue false idPerm true
        { initialState with
          playlist := ["/x.ogg", "/y.ogg"]
          listbox_path_map := ["/x.ogg", "/y.ogg"]
          current_track_index := 0
          repeat_mode := REPEAT_ONE
          playing_state := .playing }).1.loaded_path = some "/x.ogg") ∧
    (nextTrack fsTrue false idPerm false
        { initialState with
          playlist := ["/x.ogg", "/y.ogg"]
          listbox_path_map := ["/x.ogg", "/y.ogg"]
          current_track_index := 0
          repeat_mode := REPEAT_ONE
          playing_state := .playing }).1.current_track_index = 1 := by
  have h := c4_repeat_one_advance fsTrue false idPerm
    { initialState with
      playlist := ["/x.ogg", "/y.ogg"]
      listbox_path_map := ["/x.ogg", "/y.ogg"]
      current_track_index := 0
      repeat_mode := REPEAT_ONE
      playing_state := .playing } 0
    rfl rfl rfl (by decide) (by decide)
  exact ⟨⟨h.1.1, by rw [h.1.2.1]; decide⟩, h.2.1⟩

/-- C2: for every master list and raw search input, after
`search_playlist_action` with shuffle disabled (and a term change so the
recompute runs), the view is exactly the master-list entries whose lowercased
basename contains the stored term — equivalently, case-insensitively
contains it, since the stored term is already lowercase (recorded by `hlow`,
which holds for every raw input) — it preserves the master list's relative
order, and the empty stored term passes every entry. -/
theorem c2_search_filter (f : List String → List String) (s : AppState)
    (raw : String) (hsh : s.is_shuffled = false)
    (hlow : toLowerStr (trimStr (toLowerStr raw)) = trimStr (toLowerStr raw))
    (hrun : trimStr (toLowerStr raw) ≠ s.last_applied_search) :
    (searchPlaylistAction f raw s).playlist =
      s.original_playlist_order.filter
        (fun p => strContains (toLowerStr (basename p))
          (toLowerStr (trimStr (toLowerStr raw)))) ∧
    List.Sublist (searchPlaylistAction f raw s).playlist
      s.original_playlist_order ∧
    (trimStr (toLowerStr raw) = "" →
      (searchPlaylistAction f raw s).playlist =
        s.original_playlist_order) := by
  have hpl : (searchPlaylistAction f raw s).playlist =
      deriveView f
        { s with current_search_term := trimStr (toLowerStr raw) } := by
    unfold searchPlaylistAction
    exact apply_playlist f false _ (fun hcc => hrun hcc.2.1)
  have hdv : deriveView f
        { s with current_search_term := trimStr (toLowerStr raw) } =
      if trimStr (toLowerStr raw) ≠ "" then
        s.original_playlist_order.filter
          (fun p => strContains (toLowerStr (basename p))
            (trimStr (toLowerStr raw)))
      else s.original_playlist_order := by
    unfold deriveView
    dsimp only
    rw [hsh]
    simp
  rw [hpl, hdv]
  by_cases hts : trimStr (toLowerStr raw) = ""
  · rw [if_neg (by simpa using hts)]
    refine ⟨?_, List.Sublist.refl _, fun _ => rfl⟩
    rw [hts]
    exact (List.filter_eq_self.mpr
      (fun a _ => strContains_empty (toLowerStr (basename a)))).symm
  · rw [if_pos hts]
    refine ⟨?_, List.filter_sublist _, fun h => absurd h hts⟩
    rw [hlow]

theorem c2_search_filter_witness :
    (searchPlaylistAction idPerm "AB"
        { initialState with
          original_playlist_order := ["/ab.ogg", "/cd.ogg"]
          last_applied_search := "zzz" }).playlist = ["/ab.ogg"] := by
  have h := c2_search_filter idPerm
    { initialState with
      original_playlist_order := ["/ab.ogg", "/cd.ogg"]
      last_applied_search := "zzz" } "AB" rfl (by decide) (by decide)
  rw [h.1]
  decide

end PyTunes
